import Mathlib

/-!
HR Analytics (TalentView): verification of the data-preparation and metrics modules.

Shallow embedding of `data_preparation.py` (class `HRDataModel`) and
`dax_measures.py` (class `DAXMeasures`).  Pandas DataFrames are modelled as a
list of rows (association lists from column name to a cell value) together
with an explicit column list; pandas `NaN` is the `Value.null` marker.
Machine floats of the source are modelled as exact rationals.
-/

namespace HR

/-- A cell of a DataFrame: a string, a (rational) number, or the null/NaN marker. -/
inductive Value where
  | str (s : String)
  | num (q : ℚ)
  | null
deriving DecidableEq, Repr

/-- A DataFrame row: an association list from column name to cell value. -/
abbrev Row := List (String × Value)

/-- Reading a cell from a row; a column absent from the row reads as null (NaN). -/
def rowCell (r : Row) (c : String) : Value :=
  ((r.find? (fun p => p.1 == c)).map (fun p => p.2)).getD Value.null

/-- A pandas DataFrame: named columns and a list of rows. -/
structure DataFrame where
  cols : List String
  rows : List Row
deriving DecidableEq, Repr

/-- A value of a Python filter dict entry: `None`, a scalar, or a list. -/
inductive FilterVal where
  | vnone
  | single (v : Value)
  | vlist (vs : List Value)
deriving DecidableEq, Repr

/-- A Python filter dict, `{column: value}`, in iteration order. -/
abbrev Filters := List (String × FilterVal)

/-- One iteration of the loop of `DAXMeasures._apply_filters`: the entry is
skipped when its key is not a column or its value is `None`; a list value
filters by membership, a scalar by equality. -/
def apply_filter_entry (cols : List String) (rows : List Row) (e : String × FilterVal) :
    List Row :=
  if e.1 ∈ cols then
    match e.2 with
    | .vnone => rows
    | .single w => rows.filter (fun r => rowCell r e.1 == w)
    | .vlist ws => rows.filter (fun r => ws.contains (rowCell r e.1))
  else rows

/-- Embeds `DAXMeasures._apply_filters` on a non-None filters dict: fold the entries
over the rows.  (The Python code works on a copy, so the input frame is not
written; see `identify_key_influencers_post` for the aliasing in the None case.) -/
def apply_filters_list (df : DataFrame) (fs : Filters) : DataFrame :=
  ⟨df.cols, fs.foldl (fun rows e => apply_filter_entry df.cols rows e) df.rows⟩

/-- Embeds `DAXMeasures._apply_filters`: `None` filters return the frame unchanged. -/
def apply_filters (df : DataFrame) (fs : Option Filters) : DataFrame :=
  match fs with
  | none => df
  | some fs => apply_filters_list df fs

/-- A single row passes a filter entry (skipped entries always pass). -/
def row_passes (cols : List String) (e : String × FilterVal) (r : Row) : Bool :=
  if e.1 ∈ cols then
    match e.2 with
    | .vnone => true
    | .single w => rowCell r e.1 == w
    | .vlist ws => ws.contains (rowCell r e.1)
  else true

/-- A row passes every entry of a filters dict. -/
def row_matches_all (cols : List String) (fs : Filters) (r : Row) : Bool :=
  fs.all (fun e => row_passes cols e r)

/-- The row of a merged view is an active (non-departed) employee:
`df_filtered['Attrition'] == 'No'`. -/
def is_active (r : Row) : Bool := rowCell r "Attrition" == Value.str "No"

/-! ## The separation-reason inference (`HRDataModel._infer_separation_reason`) -/

/-- The columns of a departed-employee row read by `_infer_separation_reason`. -/
structure EmpRow where
  jobSatisfaction : ℚ
  environmentSatisfaction : ℚ
  workLifeBalance : ℚ
  monthlyIncome : ℚ
  overTime : String
  yearsSinceLastPromotion : ℚ
deriving DecidableEq, Repr

/-- Embeds `HRDataModel._infer_separation_reason`: collect every matching reason in
source order into a list and return its first element, or "Other" when the
list is empty.  `medianIncome` is the dataset-wide `MonthlyIncome` median. -/
def infer_separation_reason (medianIncome : ℚ) (row : EmpRow) : String :=
  let reasons : List String :=
    (if row.jobSatisfaction ≤ 2 then ["Low Job Satisfaction"] else []) ++
    (if row.environmentSatisfaction ≤ 2 then ["Poor Work Environment"] else []) ++
    (if row.workLifeBalance ≤ 2 then ["Work-Life Balance"] else []) ++
    (if row.monthlyIncome < medianIncome then ["Compensation"] else []) ++
    (if row.overTime = "Yes" then ["Overtime Concerns"] else []) ++
    (if row.yearsSinceLastPromotion > 5 then ["Limited Growth"] else [])
  reasons.headD "Other"

/-! ## Age bands (`HRDataModel.create_demographics_table`) -/

/-- Embeds `pandas.cut` with right-closed bins: scan consecutive bin edges and return
the label of the first interval `(lo, hi]` containing `a`; values outside
every bin get no label (NaN). -/
def cut : List ℚ → List String → ℚ → Option String
  | lo :: hi :: bs, lab :: labs, a =>
      if lo < a ∧ a ≤ hi then some lab else cut (hi :: bs) labs a
  | _, _, _ => none

/-- The derived `AgeGroup` column:
`pd.cut(age, bins=[0,25,35,45,55,100], labels=[...])`. -/
def age_group (a : ℚ) : Option String :=
  cut [0, 25, 35, 45, 55, 100] ["18-25", "26-35", "36-45", "46-55", "55+"] a

/-! ## The department dimension (`HRDataModel.create_department_table`) -/

/-- Embeds `pandas.Series.unique`: the distinct values of a list in the order they are
first encountered. -/
def uniqueFirst : List Value → List Value
  | [] => []
  | a :: l => a :: uniqueFirst (l.filter (fun b => b != a))
termination_by l => l.length
decreasing_by simpa using Nat.lt_succ_of_le (List.length_filter_le _ _)

/-- Embeds `HRDataModel.create_department_table`: pair the distinct department values
(in first-encounter order) with `DepartmentID`s `range(1, len+1)`. -/
def create_department_table (departmentCol : List Value) : List (ℕ × Value) :=
  List.zip (List.range' 1 (uniqueFirst departmentCol).length) (uniqueFirst departmentCol)

/-! ## The clean stage (`HRDataModel.clean_data`) -/

/-- Embeds `pandas.Series.nunique` of a column: the number of distinct non-null values. -/
def nunique (df : DataFrame) (c : String) : ℕ :=
  (((df.rows.map (fun r => rowCell r c)).filter (fun v => v != Value.null)).dedup).length

/-- The columns `clean_data` coerces with `pd.to_numeric(errors='coerce')`. -/
def numeric_cols : List String :=
  ["Age", "MonthlyIncome", "YearsAtCompany", "TotalWorkingYears"]

/-- Decimal-literal parsing, modelling what `pd.to_numeric` accepts on this
data: an optional minus sign, digits, and an optional fractional part. -/
def parse_decimal (s : String) : Option ℚ :=
  let unsigned (t : String) : Option ℚ :=
    match t.split (fun ch => ch = '.') with
    | [w] => (w.toNat?).map (fun n => (n : ℚ))
    | [w, f] =>
        match w.toNat?, f.toNat? with
        | some a, some b => some ((a : ℚ) + (b : ℚ) / (10 : ℚ) ^ f.length)
        | _, _ => none
    | _ => none
  if s.startsWith "-" then (unsigned (s.drop 1)).map (fun q => -q)
  else unsigned s

/-- Embeds `pd.to_numeric(errors='coerce')` on one cell: numbers pass through, parseable
strings become numbers, everything unparseable becomes the null marker (NaN);
the coercion is a total function and never fails. -/
def to_numeric_cell (v : Value) : Value :=
  match v with
  | .num q => .num q
  | .null => .null
  | .str s =>
      match parse_decimal s with
      | some q => .num q
      | none => .null

/-- Embeds `HRDataModel.clean_data`: drop every column with `nunique() <= 1`, then
coerce the declared numeric columns cell-wise with `pd.to_numeric(errors='coerce')`. -/
def clean_data (df : DataFrame) : DataFrame :=
  let keptCols := df.cols.filter (fun c => decide (1 < nunique df c))
  ⟨keptCols,
   df.rows.map (fun r =>
     keptCols.map (fun c =>
       (c, if c ∈ numeric_cols then to_numeric_cell (rowCell r c) else rowCell r c)))⟩

/-! ## The prepared data model and the scalar measures of `DAXMeasures` -/

/-- The tables of the prepared data model held by `DAXMeasures`. -/
structure DataModel where
  merged : DataFrame
  separations : DataFrame
  headcount : DataFrame
  demographics : DataFrame
deriving DecidableEq, Repr

/-- Embeds `DAXMeasures.calculate_headcount`: rows of the filtered merged view with
`Attrition == 'No'`. -/
def calculate_headcount (m : DataModel) (fs : Option Filters) : ℕ :=
  ((apply_filters m.merged fs).rows.filter is_active).length

/-- The window test of `calculate_separations`: the row's `SeparationDate` is on
or after `now - period_months*30` days; a null/non-date cell compares false. -/
def separation_in_window (now : ℚ) (periodMonths : ℤ) (r : Row) : Bool :=
  match rowCell r "SeparationDate" with
  | .num d => decide (now - (periodMonths : ℚ) * 30 ≤ d)
  | _ => false

/-- Embeds `DAXMeasures.calculate_separations`: filter the separations fact (a falsy —
`None` or empty — filters dict leaves it as is), restrict to the trailing
window when `period_months < 12`, and count rows.  Dates are modelled as
rational day numbers and the clock `datetime.now()` as the parameter `now`. -/
def calculate_separations (m : DataModel) (fs : Option Filters) (periodMonths : ℤ)
    (now : ℚ) : ℕ :=
  let sf : DataFrame :=
    match fs with
    | some f => if f.isEmpty then m.separations else apply_filters_list m.separations f
    | none => m.separations
  let sf2 : DataFrame :=
    if periodMonths < 12 then ⟨sf.cols, sf.rows.filter (separation_in_window now periodMonths)⟩
    else sf
  sf2.rows.length

/-- Round half to even to an integer, the behaviour of Python 3 `round`. -/
def round_half_even (q : ℚ) : ℤ :=
  let n := ⌊q⌋
  if q - n < 1 / 2 then n
  else if 1 / 2 < q - n then n + 1
  else if 2 ∣ n then n else n + 1

/-- Embeds `round(x, 2)` of the source, over exact rationals. -/
def round2 (q : ℚ) : ℚ := (round_half_even (q * 100) : ℚ) / 100

/-- Embeds `DAXMeasures.calculate_attrition_rate`: `0.0` when the headcount is zero,
otherwise `round(separations / headcount * 100, 2)`. -/
def calculate_attrition_rate (m : DataModel) (fs : Option Filters) (periodMonths : ℤ)
    (now : ℚ) : ℚ :=
  let separations := calculate_separations m fs periodMonths now
  let headcount := calculate_headcount m fs
  if headcount = 0 then 0
  else round2 ((separations : ℚ) / (headcount : ℚ) * 100)

/-! ## Key influencers (`DAXMeasures.identify_key_influencers`)

Pearson correlation of a numeric column `x` with the binary attrition
indicator `y` is `cov(x,y) / sqrt(var(x) * var(y))`.  To stay inside the
rationals the development carries the centred sums `cov`, `varX`, `varY`
instead of the correlation itself: the correlation is defined iff there are at
least two pairs and both variances are nonzero, its sign is the sign of `cov`
(the square root of `varX * varY` is positive), and comparisons of absolute
correlations coincide with comparisons of the squared correlation
`cov^2 / (varX * varY)`, which is rational. -/

/-- The `AttritionBinary` indicator: `(df['Attrition'] == 'Yes').astype(int)`. -/
def attrition_binary (r : Row) : ℚ :=
  if rowCell r "Attrition" == Value.str "Yes" then 1 else 0

/-- The (x, attrition) pairs entering the correlation for column `c`: rows
whose `c`-cell is numeric (pandas `corr` drops NaN pairs). -/
def corr_pairs (df : DataFrame) (c : String) : List (ℚ × ℚ) :=
  df.rows.filterMap (fun r =>
    match rowCell r c with
    | .num q => some (q, attrition_binary r)
    | _ => none)

/-- Mean of a list of rationals (0 on the empty list, as `0 / 0 = 0`). -/
def qmean (l : List ℚ) : ℚ := l.sum / l.length

/-- Centred cross sum `Σ (x - mean x) * (y - mean y)` of a pair list. -/
def cov_sum (ps : List (ℚ × ℚ)) : ℚ :=
  let mx := qmean (ps.map Prod.fst)
  let my := qmean (ps.map Prod.snd)
  (ps.map (fun p => (p.1 - mx) * (p.2 - my))).sum

/-- Centred square sum `Σ (x - mean x)^2` of the first components. -/
def varx_sum (ps : List (ℚ × ℚ)) : ℚ :=
  let mx := qmean (ps.map Prod.fst)
  (ps.map (fun p => (p.1 - mx) ^ 2)).sum

/-- Centred square sum `Σ (y - mean y)^2` of the second components. -/
def vary_sum (ps : List (ℚ × ℚ)) : ℚ :=
  let my := qmean (ps.map Prod.snd)
  (ps.map (fun p => (p.2 - my) ^ 2)).sum

/-- The Pearson correlation of the pair list is defined (pandas `corr` returns
NaN on fewer than two pairs or a zero variance). -/
def corr_defined (ps : List (ℚ × ℚ)) : Bool :=
  decide (2 ≤ ps.length) && decide (varx_sum ps ≠ 0) && decide (vary_sum ps ≠ 0)

/-- The squared Pearson correlation, `cov^2 / (varX * varY)`: the strictly
monotone image of the absolute correlation `abs(corr)` the source sorts by. -/
def corr_sq (ps : List (ℚ × ℚ)) : ℚ :=
  (cov_sum ps) ^ 2 / (varx_sum ps * vary_sum ps)

/-- The fixed candidate attribute list of `identify_key_influencers`. -/
def influencer_cols : List String :=
  ["Age", "MonthlyIncome", "YearsAtCompany", "TotalWorkingYears",
   "JobSatisfaction", "EnvironmentSatisfaction", "WorkLifeBalance",
   "YearsSinceLastPromotion", "DistanceFromHome", "PercentSalaryHike"]

/-- The `correlations` dict: candidate columns present in the frame whose
correlation is not NaN, each with the (squared) correlation magnitude,
in candidate order (Python dicts preserve insertion order). -/
def correlations_list (df : DataFrame) : List (String × ℚ) :=
  influencer_cols.filterMap (fun c =>
    if c ∈ df.cols ∧ corr_defined (corr_pairs df c) then some (c, corr_sq (corr_pairs df c))
    else none)

/-- Insert into a descending-by-magnitude list, keeping earlier entries first
on ties (the stability of Python `sorted`). -/
def insert_desc (a : String × ℚ) : List (String × ℚ) → List (String × ℚ)
  | [] => [a]
  | b :: l => if a.2 < b.2 then b :: insert_desc a l else a :: b :: l

/-- Embeds `sorted(correlations.items(), key=magnitude, reverse=True)`: stable
insertion sort, descending by magnitude. -/
def sort_desc (l : List (String × ℚ)) : List (String × ℚ) := l.foldr insert_desc []

/-- One output row of `identify_key_influencers`.  `impactSq` carries the
squared correlation (the source reports `round(abs(corr)*100, 2)`, a strictly
monotone image of the same quantity). -/
structure Influencer where
  factor : String
  impactSq : ℚ
  direction : String
deriving DecidableEq, Repr

/-- Embeds `DAXMeasures.identify_key_influencers` (returned value): take the `top_n`
entries of the sorted correlations and attach the direction label, `"Increases"`
iff the correlation (equivalently its numerator `cov`) is positive. -/
def identify_key_influencers (m : DataModel) (fs : Option Filters) (topN : ℕ) :
    List Influencer :=
  let df := apply_filters m.merged fs
  ((sort_desc (correlations_list df)).take topN).map (fun p =>
    { factor := p.1
      impactSq := p.2
      direction := if 0 < cov_sum (corr_pairs df p.1) then "Increases" else "Decreases" })

/-- Replace the values of column `c` in a row, or append the column if absent
(pandas `df[c] = ...` semantics). -/
def set_cell (r : Row) (c : String) (v : Value) : Row :=
  if r.any (fun p => p.1 == c) then r.map (fun p => if p.1 == c then (p.1, v) else p)
  else r ++ [(c, v)]

/-- Embeds `df[c] = f(row)` on a whole frame. -/
def set_column (df : DataFrame) (c : String) (f : Row → Value) : DataFrame :=
  ⟨if c ∈ df.cols then df.cols else df.cols ++ [c],
   df.rows.map (fun r => set_cell r c (f r))⟩

/-- The state of the data model after `identify_key_influencers` returns.
When `filters` is `None`, `_apply_filters` returns the underlying merged frame
itself (no copy is taken), so the assignment
`df_filtered['AttritionBinary'] = (df_filtered['Attrition'] == 'Yes').astype(int)`
writes through the alias into the shared merged table; with any non-None
filters dict `_apply_filters` copies first and the write lands on the copy. -/
def identify_key_influencers_post (m : DataModel) (fs : Option Filters) : DataModel :=
  match fs with
  | none =>
      { m with merged := set_column m.merged "AttritionBinary"
                 (fun r => .num (attrition_binary r)) }
  | some _ => m

/-! ## The load stage and the pipeline (`load_data`, `prepare_complete_model`) -/

/-- The exception classes the load stage can surface.  `pandas.read_csv` raises
the built-in `FileNotFoundError` (an `OSError`) on a missing or unreadable
path; the repository defines no `DataLoadError` class anywhere. -/
inductive PyError where
  | fileNotFoundError (msg : String)
  | dataLoadError (msg : String)
deriving DecidableEq, Repr

/-- The result of the spec's claimed load failure matches `DataLoadError`. -/
def is_data_load_error (e : Except PyError DataFrame) : Bool :=
  match e with
  | .error (.dataLoadError _) => true
  | _ => false

/-- Embeds `HRDataModel.load_data`: `pd.read_csv(self.data_path)`.  The file system is
modelled as the optional content at the path: an absent or unreadable source is
`none`, on which `read_csv` raises `FileNotFoundError`; otherwise the parsed
frame is returned. -/
def load_data (source : Option DataFrame) : Except PyError DataFrame :=
  match source with
  | none => .error (.fileNotFoundError "No such file or directory")
  | some df => .ok df

/-- Embeds `HRDataModel.merge_tables`: left join of the employee frame with the
department dimension on `Department == DepartmentName`; unmatched rows keep
null department fields. -/
def merge_tables (emp : DataFrame) (dept : List (ℕ × Value)) : DataFrame :=
  ⟨emp.cols ++ ["DepartmentID", "DepartmentName"],
   emp.rows.map (fun r =>
     match dept.find? (fun p => p.2 == rowCell r "Department") with
     | some p => r ++ [("DepartmentID", .num p.1), ("DepartmentName", p.2)]
     | none => r ++ [("DepartmentID", .null), ("DepartmentName", .null)])⟩

/-- The deterministic part of the pipeline body of `prepare_complete_model`
after a successful load: clean, build the department dimension, build the
separations fact (from rows with `Attrition == 'Yes'`), and merge.  The
randomized headcount snapshot is abstracted by the `noise` parameter; the
demographics projection keeps the frame with the derived band column dropped
from this model (no claim depends on its row contents). -/
def build_model (noise : ℕ → ℚ) (df0 : DataFrame) : DataModel :=
  let emp := clean_data df0
  let dept := create_department_table (emp.rows.map (fun r => rowCell r "Department"))
  let seps : DataFrame :=
    ⟨emp.cols, emp.rows.filter (fun r => rowCell r "Attrition" == Value.str "Yes")⟩
  let hc : DataFrame :=
    ⟨["Month", "Headcount"],
     (List.range 12).map (fun (i : ℕ) =>
       [("Month", Value.num (i : ℚ)), ("Headcount", Value.num (max ((emp.rows.length : ℚ) + noise i)
          ((emp.rows.length : ℚ) * 9 / 10)))])⟩
  { merged := merge_tables emp dept
    separations := seps
    headcount := hc
    demographics := emp }

/-- Embeds `HRDataModel.prepare_complete_model`: run `load_data` first; a load failure
propagates and aborts the run with no data model built. -/
def prepare_complete_model (noise : ℕ → ℚ) (source : Option DataFrame) :
    Except PyError DataModel :=
  match load_data source with
  | .error e => .error e
  | .ok df => .ok (build_model noise df)

/-! ## Theorems -/

/-- C3: for every departed-employee row and dataset-wide median income, the
inferred separation reason is a deterministic function of the row and the
median, equals the label of the first matching predicate in the fixed priority
order (job satisfaction, environment satisfaction, work-life balance, income
below median, overtime, promotion gap, otherwise "Other"), and is always one
of the seven fixed labels. -/
theorem c3_separation_reason_priority (med : ℚ) (r : EmpRow) :
    infer_separation_reason med r =
      (if r.jobSatisfaction ≤ 2 then "Low Job Satisfaction"
       else if r.environmentSatisfaction ≤ 2 then "Poor Work Environment"
       else if r.workLifeBalance ≤ 2 then "Work-Life Balance"
       else if r.monthlyIncome < med then "Compensation"
       else if r.overTime = "Yes" then "Overtime Concerns"
       else if r.yearsSinceLastPromotion > 5 then "Limited Growth"
       else "Other") ∧
    infer_separation_reason med r ∈
      ["Low Job Satisfaction", "Poor Work Environment", "Work-Life Balance",
       "Compensation", "Overtime Concerns", "Limited Growth", "Other"] := by
  unfold infer_separation_reason
  constructor
  · split_ifs <;> simp_all
  · split_ifs <;> simp

/-- Unfolding the `pd.cut` scan over the five age bins. -/
theorem age_group_eq (a : ℚ) :
    age_group a =
      if 0 < a ∧ a ≤ 25 then some "18-25"
      else if 25 < a ∧ a ≤ 35 then some "26-35"
      else if 35 < a ∧ a ≤ 45 then some "36-45"
      else if 45 < a ∧ a ≤ 55 then some "46-55"
      else if 55 < a ∧ a ≤ 100 then some "55+"
      else none := by
  simp only [age_group, cut]

/-- C7: the derived age band is assigned by exclusive-low/inclusive-high range
membership over boundaries 0, 25, 35, 45, 55, 100 with the five fixed labels;
in particular ages 25, 26, 55, 56 land in "18-25", "26-35", "46-55", "55+". -/
theorem c7_age_band (a : ℚ) :
    (age_group a = some "18-25" ↔ 0 < a ∧ a ≤ 25) ∧
    (age_group a = some "26-35" ↔ 25 < a ∧ a ≤ 35) ∧
    (age_group a = some "36-45" ↔ 35 < a ∧ a ≤ 45) ∧
    (age_group a = some "46-55" ↔ 45 < a ∧ a ≤ 55) ∧
    (age_group a = some "55+" ↔ 55 < a ∧ a ≤ 100) ∧
    age_group 25 = some "18-25" ∧ age_group 26 = some "26-35" ∧
    age_group 55 = some "46-55" ∧ age_group 56 = some "55+" := by
  have hag := age_group_eq a
  refine ⟨?_, ?_, ?_, ?_, ?_, by decide, by decide, by decide, by decide⟩ <;>
  · constructor
    · intro h
      rw [hag] at h
      split_ifs at h with h1 h2 h3 h4 h5 <;> first | assumption | simp at h
    · rintro ⟨hra, hrb⟩
      rw [hag]
      split_ifs with h1 h2 h3 h4 h5 <;>
        first
        | rfl
        | exact absurd (And.intro hra hrb) (by assumption)
        | (exfalso; linarith [h1.1, h1.2])
        | (exfalso; linarith [h2.1, h2.2])
        | (exfalso; linarith [h3.1, h3.2])
        | (exfalso; linarith [h4.1, h4.2])

/-- C8 counterexample: on an absent source the load stage raises the built-in
`FileNotFoundError`, not a `DataLoadError`; no `DataLoadError` class exists in
the repository. -/
theorem c8_counterexample :
    load_data none = .error (.fileNotFoundError "No such file or directory") ∧
    is_data_load_error (load_data none) = false :=
  ⟨rfl, rfl⟩

/-- C8 amended: for an absent or unreadable input path, `load_data` fails by
raising the underlying file error (`FileNotFoundError`), and the preparation
run (`prepare_complete_model`) is aborted with that descriptive error and no
data model is produced. -/
theorem c8_load_failure_aborts (noise : ℕ → ℚ) :
    load_data none = .error (.fileNotFoundError "No such file or directory") ∧
    prepare_complete_model noise none =
      .error (.fileNotFoundError "No such file or directory") :=
  ⟨rfl, rfl⟩

/-- A one-employee prepared model: the merged view has the single column
`Attrition` and one active row, the other tables are empty. -/
def model_c2 : DataModel :=
  ⟨⟨["Attrition"], [[("Attrition", Value.str "No")]]⟩, ⟨[], []⟩, ⟨[], []⟩, ⟨[], []⟩⟩

/-- C2: evaluating `identify_key_influencers` with `filters=None` at a concrete
prepared model mutates the underlying merged table: `_apply_filters` returns
the shared frame itself when `filters is None`, and the
`df_filtered['AttritionBinary'] = ...` assignment writes an `AttritionBinary`
column into it, contradicting the non-destructive filter contract (the copy in
`_apply_filters` shows non-mutation is the intent).  With any non-None filters
dict the write lands on a copy and the model is unchanged. -/
theorem c2_key_influencers_mutates_model :
    identify_key_influencers_post model_c2 none ≠ model_c2 ∧
    (identify_key_influencers_post model_c2 none).merged.cols =
      ["Attrition", "AttritionBinary"] ∧
    model_c2.merged.cols = ["Attrition"] ∧
    (∀ fsv : Filters, identify_key_influencers_post model_c2 (some fsv) = model_c2) :=
  ⟨by decide, by decide, rfl, fun _ => rfl⟩

/-! ### C6: the department dimension -/

/-- Lists produced by `uniqueFirst` have the same members as the input. -/
theorem mem_uniqueFirst (x : Value) (l : List Value) : x ∈ uniqueFirst l ↔ x ∈ l := by
  induction l using uniqueFirst.induct with
  | case1 => simp [uniqueFirst]
  | case2 a l ih =>
      rw [uniqueFirst]
      simp only [List.mem_cons, ih, List.mem_filter, bne_iff_ne, ne_eq]
      by_cases hxa : x = a <;> simp [hxa]

/-- Lists produced by `uniqueFirst` have no duplicates. -/
theorem nodup_uniqueFirst (l : List Value) : (uniqueFirst l).Nodup := by
  induction l using uniqueFirst.induct with
  | case1 => simp [uniqueFirst]
  | case2 a l ih =>
      rw [uniqueFirst]
      refine List.nodup_cons.mpr ⟨?_, ih⟩
      intro hmem
      have := (List.mem_filter.mp ((mem_uniqueFirst _ _).mp hmem)).2
      simp at this

/-- Strictly ordered positions in a filtered list come from strictly ordered
positions in the original list. -/
theorem indexOf_filter_lt (p : Value → Bool) :
    ∀ (l : List Value) (x y : Value), x ∈ l.filter p → y ∈ l.filter p →
      (l.filter p).indexOf x < (l.filter p).indexOf y → l.indexOf x < l.indexOf y := by
  intro l
  induction l with
  | nil => intro x y hx _ _; simp at hx
  | cons a t ih =>
      intro x y hx hy hlt
      by_cases hpa : p a
      · rw [List.filter_cons_of_pos hpa] at hx hy hlt
        by_cases hxa : x = a
        · have hya : y ≠ a := by
            intro hya
            rw [hxa, hya] at hlt
            exact lt_irrefl _ hlt
          rw [hxa, List.indexOf_cons_self, List.indexOf_cons_ne _ (Ne.symm hya)]
          exact Nat.succ_pos _
        · have hya : y ≠ a := by
            intro hya; subst hya
            rw [List.indexOf_cons_self, List.indexOf_cons_ne _ (Ne.symm hxa)] at hlt
            exact Nat.not_succ_le_zero _ hlt
          rw [List.indexOf_cons_ne _ (Ne.symm hxa), List.indexOf_cons_ne _ (Ne.symm hya)] at hlt ⊢
          have hx2 : x ∈ t.filter p := by
            rcases List.mem_cons.mp hx with h | h
            · exact absurd h hxa
            · exact h
          have hy2 : y ∈ t.filter p := by
            rcases List.mem_cons.mp hy with h | h
            · exact absurd h hya
            · exact h
          exact Nat.succ_lt_succ (ih x y hx2 hy2 (Nat.lt_of_succ_lt_succ hlt))
      · rw [List.filter_cons_of_neg hpa] at hx hy hlt
        have hxa : x ≠ a := fun hxa => hpa (hxa ▸ (List.mem_filter.mp hx).2)
        have hya : y ≠ a := fun hya => hpa (hya ▸ (List.mem_filter.mp hy).2)
        rw [List.indexOf_cons_ne _ (Ne.symm hxa), List.indexOf_cons_ne _ (Ne.symm hya)]
        exact Nat.succ_lt_succ (ih x y hx hy hlt)

/-- Values of `uniqueFirst` appear in first-encounter order: positions
in the output are ordered by first occurrence in the input. -/
theorem uniqueFirst_pairwise_indexOf (l : List Value) :
    (uniqueFirst l).Pairwise (fun x y => l.indexOf x < l.indexOf y) := by
  induction l using uniqueFirst.induct with
  | case1 => simp [uniqueFirst]
  | case2 a l ih =>
      rw [uniqueFirst]
      refine List.pairwise_cons.mpr ⟨?_, ?_⟩
      · intro y hy
        have hyf := (mem_uniqueFirst _ _).mp hy
        have hya : y ≠ a := by simpa using (List.mem_filter.mp hyf).2
        rw [List.indexOf_cons_self, List.indexOf_cons_ne _ (Ne.symm hya)]
        exact Nat.succ_pos _
      · refine ih.imp_of_mem ?_
        intro x y hx hy hlt
        have hxf := (mem_uniqueFirst _ _).mp hx
        have hyf := (mem_uniqueFirst _ _).mp hy
        have hxa : x ≠ a := by simpa using (List.mem_filter.mp hxf).2
        have hya : y ≠ a := by simpa using (List.mem_filter.mp hyf).2
        rw [List.indexOf_cons_ne _ (Ne.symm hxa), List.indexOf_cons_ne _ (Ne.symm hya)]
        exact Nat.succ_lt_succ (indexOf_filter_lt _ l x y hxf hyf hlt)

/-- C6: the department dimension has exactly one row per distinct department
value of the input (no duplicate names, membership coincides with the input),
its `DepartmentID` column is exactly the contiguous range `1..N`, and the
names are listed in the order the distinct values are first encountered
(positions ordered by first-occurrence index in the input). -/
theorem c6_department_table (ds : List Value) :
    ((create_department_table ds).map Prod.snd).Nodup ∧
    (∀ v, v ∈ (create_department_table ds).map Prod.snd ↔ v ∈ ds) ∧
    (create_department_table ds).map Prod.fst =
      List.range' 1 (create_department_table ds).length ∧
    ((create_department_table ds).map Prod.snd).Pairwise
      (fun x y => ds.indexOf x < ds.indexOf y) := by
  have hlen : (List.range' 1 (uniqueFirst ds).length).length = (uniqueFirst ds).length := by
    simp
  have hsnd : (create_department_table ds).map Prod.snd = uniqueFirst ds := by
    unfold create_department_table
    exact List.map_snd_zip _ _ (le_of_eq hlen.symm)
  have hfst : (create_department_table ds).map Prod.fst =
      List.range' 1 (uniqueFirst ds).length := by
    unfold create_department_table
    exact List.map_fst_zip _ _ (le_of_eq hlen)
  have htlen : (create_department_table ds).length = (uniqueFirst ds).length := by
    unfold create_department_table
    simp
  refine ⟨?_, ?_, ?_, ?_⟩
  · rw [hsnd]; exact nodup_uniqueFirst ds
  · intro v; rw [hsnd]; exact mem_uniqueFirst v ds
  · rw [hfst, htlen]
  · rw [hsnd]; exact uniqueFirst_pairwise_indexOf ds

/-! ### C1: the attrition rate -/

/-- Rounding half to even preserves nonnegativity. -/
theorem round_half_even_nonneg {q : ℚ} (h : 0 ≤ q) : 0 ≤ round_half_even q := by
  have hfl : (0 : ℤ) ≤ ⌊q⌋ := Int.floor_nonneg.mpr h
  unfold round_half_even
  dsimp only
  split_ifs <;> omega

/-- Rounding to two decimals preserves nonnegativity. -/
theorem round2_nonneg {q : ℚ} (h : 0 ≤ q) : 0 ≤ round2 q := by
  unfold round2
  have : (0 : ℚ) ≤ (round_half_even (q * 100) : ℚ) := by
    exact_mod_cast round_half_even_nonneg (by positivity)
  positivity

/-- C1: for every model, filters and window, the attrition rate is
`round(100 * separations / headcount, 2)` (with `separations` and `headcount`
the corresponding measures on the same filters and window), it is exactly `0`
when the headcount is `0` regardless of the separations count, and it is
always nonnegative. -/
theorem c1_attrition_rate (m : DataModel) (fs : Option Filters) (pm : ℤ) (now : ℚ) :
    calculate_attrition_rate m fs pm now =
      (if calculate_headcount m fs = 0 then 0
       else round2 (100 * (calculate_separations m fs pm now : ℚ) /
              (calculate_headcount m fs : ℚ))) ∧
    0 ≤ calculate_attrition_rate m fs pm now := by
  unfold calculate_attrition_rate
  dsimp only
  constructor
  · split_ifs with h
    · rfl
    · congr 1
      ring
  · split_ifs with h
    · exact le_refl 0
    · exact round2_nonneg (by positivity)

/-! ### C10 and C4: the filter contract and the headcount -/

/-- An entry whose key is not a column, or whose value is `None`, constrains
no row. -/
theorem row_passes_of_invalid (cols : List String) (e : String × FilterVal) (r : Row)
    (h : ¬(e.1 ∈ cols ∧ e.2 ≠ .vnone)) : row_passes cols e r = true := by
  unfold row_passes
  rcases e with ⟨k, v⟩
  push_neg at h
  by_cases hk : k ∈ cols
  · have hv : v = .vnone := h hk
    subst hv
    simp [hk]
  · simp [hk]

/-- One loop iteration of `_apply_filters` keeps exactly the rows passing the
entry. -/
theorem apply_filter_entry_eq (cols : List String) (rows : List Row)
    (e : String × FilterVal) :
    apply_filter_entry cols rows e = rows.filter (row_passes cols e) := by
  rcases e with ⟨k, v⟩
  unfold apply_filter_entry row_passes
  by_cases hk : k ∈ cols
  · cases v <;> simp [hk]
  · simp [hk]

/-- The fold of `_apply_filters` keeps exactly the rows passing every entry. -/
theorem apply_filters_fold (cols : List String) (fs : Filters) :
    ∀ rows : List Row,
      fs.foldl (fun rows e => apply_filter_entry cols rows e) rows =
        rows.filter (row_matches_all cols fs) := by
  induction fs with
  | nil =>
      intro rows
      simp only [List.foldl_nil]
      symm
      refine List.filter_eq_self.mpr ?_
      intro r _
      simp [row_matches_all]
  | cons e fs ih =>
      intro rows
      rw [List.foldl_cons, apply_filter_entry_eq, ih, List.filter_filter]
      unfold row_matches_all
      simp only [List.all_cons]
      congr 1
      funext r
      exact Bool.and_comm _ _

/-- The rows of the filtered view are the rows passing every entry. -/
theorem apply_filters_list_rows (df : DataFrame) (fs : Filters) :
    (apply_filters_list df fs).rows = df.rows.filter (row_matches_all df.cols fs) := by
  unfold apply_filters_list
  exact apply_filters_fold df.cols fs df.rows

/-- Dropping the skipped (invalid) entries of a filters dict does not change
which rows pass. -/
theorem row_matches_all_filter_valid (cols : List String) (fs : Filters) (row : Row) :
    row_matches_all cols fs row =
      row_matches_all cols
        (fs.filter (fun e => decide (e.1 ∈ cols) && (e.2 != .vnone))) row := by
  unfold row_matches_all
  induction fs with
  | nil => rfl
  | cons e t iht =>
      rw [List.filter_cons]
      by_cases he : (decide (e.1 ∈ cols) && (e.2 != FilterVal.vnone)) = true
      · rw [if_pos he]
        simp only [List.all_cons, iht]
      · rw [if_neg he]
        have hpass : row_passes cols e row = true := by
          apply row_passes_of_invalid
          intro hco
          apply he
          simp only [Bool.and_eq_true, decide_eq_true_eq, bne_iff_ne, ne_eq]
          exact ⟨hco.1, hco.2⟩
        simp only [List.all_cons, hpass, Bool.true_and, iht]

/-- C10: `_apply_filters` silently skips entries whose key names no column of
the table and entries whose value is `None` — removing all such entries gives
the same view, so they impose no constraint (and the function is total, so no
error is raised) — and every row of the returned view satisfies each remaining
entry: cell equality for a scalar value and cell membership for a list value. -/
theorem c10_apply_filters (df : DataFrame) (fs : Filters) (r : Row) (k : String)
    (v : FilterVal) (hr : r ∈ (apply_filters df (some fs)).rows) (hkv : (k, v) ∈ fs)
    (hk : k ∈ df.cols) (hv : v ≠ .vnone) :
    (∀ w, v = .single w → rowCell r k = w) ∧
    (∀ ws, v = .vlist ws → rowCell r k ∈ ws) ∧
    apply_filters df (some fs) =
      apply_filters df
        (some (fs.filter (fun e => decide (e.1 ∈ df.cols) && (e.2 != .vnone)))) := by
  have hrows := apply_filters_list_rows df fs
  have hmatch : row_matches_all df.cols fs r = true := by
    rw [show apply_filters df (some fs) = apply_filters_list df fs from rfl, hrows] at hr
    exact (List.mem_filter.mp hr).2
  have hpass : row_passes df.cols (k, v) r = true := by
    unfold row_matches_all at hmatch
    exact List.all_eq_true.mp hmatch _ hkv
  refine ⟨?_, ?_, ?_⟩
  · intro w hw
    subst hw
    unfold row_passes at hpass
    simp only [hk, if_pos] at hpass
    exact eq_of_beq hpass
  · intro ws hws
    subst hws
    unfold row_passes at hpass
    simp only [hk, if_pos] at hpass
    simpa using hpass
  · show apply_filters_list df fs = apply_filters_list df _
    set fs2 := fs.filter (fun e => decide (e.1 ∈ df.cols) && (e.2 != FilterVal.vnone))
      with hfs2
    have hpt : ∀ row, row_matches_all df.cols fs row = row_matches_all df.cols fs2 row :=
      fun row => row_matches_all_filter_valid df.cols fs row
    have e1 : (apply_filters_list df fs).rows = (apply_filters_list df fs2).rows := by
      rw [apply_filters_list_rows, apply_filters_list_rows]
      exact List.filter_congr (fun row _ => hpt row)
    calc apply_filters_list df fs
        = ⟨df.cols, (apply_filters_list df fs).rows⟩ := rfl
      _ = ⟨df.cols, (apply_filters_list df fs2).rows⟩ := by rw [e1]
      _ = apply_filters_list df fs2 := rfl

/-- Counting under an extra predicate after filtering is monotone in the
filter, pointwise on the base list. -/
theorem length_filter_filter_mono {α : Type} (l : List α) (p q act : α → Bool)
    (h : ∀ x ∈ l, q x = true → p x = true) :
    ((l.filter q).filter act).length ≤ ((l.filter p).filter act).length := by
  induction l with
  | nil => simp
  | cons a t ih =>
      have iht := ih (fun x hx hqx => h x (List.mem_cons_of_mem _ hx) hqx)
      rw [List.filter_cons, List.filter_cons]
      by_cases hq : q a = true
      · have hp : p a = true := h a (List.mem_cons_self _ _) hq
        rw [if_pos hq, if_pos hp, List.filter_cons, List.filter_cons]
        by_cases ha : act a = true
        · rw [if_pos ha, if_pos ha]
          simpa using iht
        · rw [if_neg ha, if_neg ha]
          exact iht
      · rw [if_neg hq]
        by_cases hp : p a = true
        · rw [if_pos hp, List.filter_cons]
          by_cases ha : act a = true
          · rw [if_pos ha]
            exact le_trans iht (Nat.le_succ _)
          · rw [if_neg ha]
            exact iht
        · rw [if_neg hp]
          exact iht

/-- C4: the headcount measure counts exactly the rows of the filtered merged
view whose `Attrition` cell is `'No'`, and it is monotone: when every row of
the base view matching the more restrictive filters `fR` also matches `f`,
the headcount under `fR` is at most the headcount under `f`. -/
theorem c4_headcount_count_monotone (m : DataModel) (f fR : Filters)
    (h : ∀ r ∈ m.merged.rows,
        row_matches_all m.merged.cols fR r = true →
          row_matches_all m.merged.cols f r = true) :
    calculate_headcount m (some f) =
      ((apply_filters m.merged (some f)).rows.filter
        (fun r => rowCell r "Attrition" == Value.str "No")).length ∧
    calculate_headcount m (some fR) ≤ calculate_headcount m (some f) := by
  constructor
  · rfl
  · show ((apply_filters_list m.merged fR).rows.filter is_active).length ≤
      ((apply_filters_list m.merged f).rows.filter is_active).length
    rw [apply_filters_list_rows, apply_filters_list_rows]
    exact length_filter_filter_mono m.merged.rows _ _ is_active h

/-- The merged view of the witness model: three employees, two active. -/
def merged_c4 : DataFrame :=
  ⟨["Attrition", "Department"],
   [[("Attrition", Value.str "No"), ("Department", Value.str "Sales")],
    [("Attrition", Value.str "No"), ("Department", Value.str "HR")],
    [("Attrition", Value.str "Yes"), ("Department", Value.str "Sales")]]⟩

/-- The witness prepared model around `merged_c4`. -/
def model_c4 : DataModel := ⟨merged_c4, ⟨[], []⟩, ⟨[], []⟩, ⟨[], []⟩⟩

/-- Witness for C4 at a concrete model: the empty filters dict versus the
restriction to the Sales department. -/
theorem c4_headcount_witness :
    calculate_headcount model_c4 (some []) =
      ((apply_filters model_c4.merged (some [])).rows.filter
        (fun r => rowCell r "Attrition" == Value.str "No")).length ∧
    calculate_headcount model_c4
        (some [("Department", FilterVal.single (Value.str "Sales"))]) ≤
      calculate_headcount model_c4 (some []) :=
  c4_headcount_count_monotone model_c4 []
    [("Department", FilterVal.single (Value.str "Sales"))] (by decide)

/-- A two-row, one-column table for the C10 witness. -/
def df_c10 : DataFrame :=
  ⟨["Department"], [[("Department", Value.str "Sales")], [("Department", Value.str "HR")]]⟩

/-- A filters dict with one effective entry, one unknown key and one `None`
value. -/
def fs_c10 : Filters :=
  [("Department", FilterVal.single (Value.str "Sales")),
   ("Missing", FilterVal.single (Value.str "x")),
   ("JobRole", FilterVal.vnone)]

/-- Witness for C10: on a concrete table and filters dict, the surviving row
satisfies the one effective entry, and dropping the skipped entries leaves the
view unchanged. -/
theorem c10_apply_filters_witness :
    rowCell [("Department", Value.str "Sales")] "Department" = Value.str "Sales" ∧
    apply_filters df_c10 (some fs_c10) =
      apply_filters df_c10
        (some (fs_c10.filter (fun e => decide (e.1 ∈ df_c10.cols) && (e.2 != .vnone)))) :=
  ⟨(c10_apply_filters df_c10 fs_c10 [("Department", Value.str "Sales")] "Department"
      (FilterVal.single (Value.str "Sales")) (by decide) (by decide) (by decide)
      (by decide)).1 (Value.str "Sales") rfl,
   (c10_apply_filters df_c10 fs_c10 [("Department", Value.str "Sales")] "Department"
      (FilterVal.single (Value.str "Sales")) (by decide) (by decide) (by decide)
      (by decide)).2.2⟩

/-! ### C9: the clean stage -/

/-- The non-null values of a column, in row order. -/
def nonnull_vals (df : DataFrame) (c : String) : List Value :=
  (df.rows.map (fun r => rowCell r c)).filter (fun v => v != Value.null)

/-- A list has more than one distinct member iff it has two unequal members. -/
theorem one_lt_dedup_length_iff {α : Type} [DecidableEq α] (l : List α) :
    1 < l.dedup.length ↔ ∃ a ∈ l, ∃ b ∈ l, a ≠ b := by
  constructor
  · intro h
    rcases hd : l.dedup with _ | ⟨x, _ | ⟨y, t⟩⟩
    · rw [hd] at h; simp at h
    · rw [hd] at h; simp at h
    · have hnd := l.nodup_dedup
      rw [hd] at hnd
      have hxy : x ≠ y := by
        intro hxy
        exact (List.nodup_cons.mp hnd).1 (hxy ▸ List.mem_cons_self _ _)
      have hx : x ∈ l := List.mem_dedup.mp (hd ▸ List.mem_cons_self _ _)
      have hy : y ∈ l :=
        List.mem_dedup.mp (hd ▸ List.mem_cons_of_mem _ (List.mem_cons_self _ _))
      exact ⟨x, hx, y, hy, hxy⟩
  · rintro ⟨a, ha, b, hb, hab⟩
    by_contra h
    push_neg at h
    have ha2 : a ∈ l.dedup := List.mem_dedup.mpr ha
    have hb2 : b ∈ l.dedup := List.mem_dedup.mpr hb
    rcases hd : l.dedup with _ | ⟨x, _ | ⟨y, t⟩⟩
    · rw [hd] at ha2; simp at ha2
    · rw [hd] at ha2 hb2
      simp only [List.mem_singleton] at ha2 hb2
      exact hab (ha2.trans hb2.symm)
    · rw [hd] at h
      simp at h

/-- Reading a cell from a row rebuilt over a key list evaluates the generating
function at the key. -/
theorem rowCell_map_keys (ks : List String) (g : String → Value) (c : String)
    (hc : c ∈ ks) : rowCell (ks.map (fun k => (k, g k))) c = g c := by
  induction ks with
  | nil => cases hc
  | cons k ks ih =>
      unfold rowCell
      by_cases hkc : k = c
      · subst hkc
        simp [List.find?]
      · rw [List.map_cons, List.find?_cons_of_neg _ (by simpa using hkc)]
        rcases List.mem_cons.mp hc with h | h
        · exact absurd h.symm hkc
        · exact ih h

/-- The column and the kept-columns test of `clean_data`, restated. -/
theorem mem_clean_data_cols (df : DataFrame) (c : String) :
    c ∈ (clean_data df).cols ↔ c ∈ df.cols ∧ 1 < nunique df c := by
  unfold clean_data
  simp [List.mem_filter]

/-- The two-column table on which the constant-column claim fails: column `A`
holds the values `1` and null (an empty CSV cell), which are not all equal. -/
def df_c9 : DataFrame :=
  ⟨["A", "B"],
   [[("A", Value.num 1), ("B", Value.num 1)],
    [("A", Value.null), ("B", Value.num 2)]]⟩

/-- C9 counterexample: column `A` of `df_c9` holds two unequal values (`1` and
null), so it is not constant across all rows, yet `clean_data` drops it:
`nunique` counts distinct non-null values only, so `[1, null]` counts as one. -/
theorem c9_counterexample :
    df_c9.rows.map (fun r => rowCell r "A") = [Value.num 1, Value.null] ∧
    Value.num 1 ≠ Value.null ∧
    "A" ∈ df_c9.cols ∧
    "A" ∉ (clean_data df_c9).cols := by
  refine ⟨by decide, by decide, by decide, by decide⟩

/-- C9 amended: the clean stage drops a column iff it does not have two
distinct non-null values (pandas `nunique` ignores nulls); retained columns
keep their per-row values, with the declared numeric columns coerced cell-wise
by the total function `to_numeric_cell`; the coercion maps every cell to a
number or to the null marker (unparseable values become null) and never fails. -/
theorem c9_clean_data_amended (df : DataFrame) (c : String) (v : Value) :
    (c ∈ (clean_data df).cols ↔
      c ∈ df.cols ∧ ∃ v1 ∈ nonnull_vals df c, ∃ v2 ∈ nonnull_vals df c, v1 ≠ v2) ∧
    (c ∈ (clean_data df).cols →
      (clean_data df).rows.map (fun r => rowCell r c) =
        df.rows.map (fun r =>
          if c ∈ numeric_cols then to_numeric_cell (rowCell r c) else rowCell r c)) ∧
    ((∃ q, to_numeric_cell v = Value.num q) ∨ to_numeric_cell v = Value.null) := by
  refine ⟨?_, ?_, ?_⟩
  · rw [mem_clean_data_cols]
    constructor
    · rintro ⟨h1, h2⟩
      unfold nunique at h2
      exact ⟨h1, (one_lt_dedup_length_iff _).mp h2⟩
    · rintro ⟨h1, h2⟩
      refine ⟨h1, ?_⟩
      show 1 < (nonnull_vals df c).dedup.length
      exact (one_lt_dedup_length_iff _).mpr h2
  · intro hc
    have hmem := (mem_clean_data_cols df c).mp hc
    show (df.rows.map _).map (fun r => rowCell r c) = _
    rw [List.map_map]
    refine List.map_congr_left ?_
    intro r _
    show rowCell ((df.cols.filter (fun c => decide (1 < nunique df c))).map _) c = _
    have hck : c ∈ df.cols.filter (fun c => decide (1 < nunique df c)) := by
      rw [List.mem_filter]
      exact ⟨hmem.1, by simpa using hmem.2⟩
    exact rowCell_map_keys _ _ c hck
  · cases v with
    | num q => exact Or.inl ⟨q, rfl⟩
    | null => exact Or.inr rfl
    | str s =>
        unfold to_numeric_cell
        cases hps : parse_decimal s with
        | some q => exact Or.inl ⟨q, by simp [hps]⟩
        | none => exact Or.inr (by simp [hps])

/-- A one-column table whose `Age` column is kept (two distinct non-null
values) for the C9 witness. -/
def df_c9w : DataFrame :=
  ⟨["Age"], [[("Age", Value.str "33")], [("Age", Value.num 2)]]⟩

/-- Witness for C9 at a concrete table: `Age` is kept and its cells are
coerced (`"33"` parses to `33`), and an unparseable cell maps to null. -/
theorem c9_clean_data_witness :
    ("Age" ∈ (clean_data df_c9w).cols ↔
      "Age" ∈ df_c9w.cols ∧
        ∃ v1 ∈ nonnull_vals df_c9w "Age", ∃ v2 ∈ nonnull_vals df_c9w "Age", v1 ≠ v2) ∧
    (clean_data df_c9w).rows.map (fun r => rowCell r "Age") =
      df_c9w.rows.map (fun r =>
        if "Age" ∈ numeric_cols then to_numeric_cell (rowCell r "Age")
        else rowCell r "Age") ∧
    ((∃ q, to_numeric_cell (Value.str "zz") = Value.num q) ∨
      to_numeric_cell (Value.str "zz") = Value.null) :=
  ⟨(c9_clean_data_amended df_c9w "Age" (Value.str "zz")).1,
   (c9_clean_data_amended df_c9w "Age" (Value.str "zz")).2.1 (by decide),
   (c9_clean_data_amended df_c9w "Age" (Value.str "zz")).2.2⟩

/-! ### C5: the key influencers -/

/-- Membership through `insert_desc`. -/
theorem mem_insert_desc (a x : String × ℚ) (l : List (String × ℚ)) :
    x ∈ insert_desc a l ↔ x = a ∨ x ∈ l := by
  induction l with
  | nil => simp [insert_desc]
  | cons b t ih =>
      unfold insert_desc
      split_ifs with h
      · simp only [List.mem_cons, ih]
        try tauto
      · simp only [List.mem_cons]
        try tauto

/-- Inserting with `insert_desc` preserves the descending-by-magnitude invariant. -/
theorem insert_desc_sorted (a : String × ℚ) (l : List (String × ℚ))
    (h : l.Pairwise (fun p q => q.2 ≤ p.2)) :
    (insert_desc a l).Pairwise (fun p q => q.2 ≤ p.2) := by
  induction l with
  | nil => simp [insert_desc]
  | cons b t ih =>
      rcases List.pairwise_cons.mp h with ⟨hb, ht⟩
      unfold insert_desc
      split_ifs with hab
      · refine List.pairwise_cons.mpr ⟨?_, ih ht⟩
        intro y hy
        rcases (mem_insert_desc a y t).mp hy with rfl | hyt
        · exact le_of_lt hab
        · exact hb y hyt
      · refine List.pairwise_cons.mpr ⟨?_, h⟩
        intro y hy
        rcases List.mem_cons.mp hy with rfl | hyt
        · exact le_of_not_lt hab
        · exact le_trans (hb y hyt) (le_of_not_lt hab)

/-- The sort of `identify_key_influencers` is descending by magnitude. -/
theorem sort_desc_sorted (l : List (String × ℚ)) :
    (sort_desc l).Pairwise (fun p q => q.2 ≤ p.2) := by
  unfold sort_desc
  induction l with
  | nil => simp
  | cons a t ih => exact insert_desc_sorted a _ ih

/-- The sort of `identify_key_influencers` preserves membership. -/
theorem mem_sort_desc (x : String × ℚ) (l : List (String × ℚ)) :
    x ∈ sort_desc l ↔ x ∈ l := by
  unfold sort_desc
  induction l with
  | nil => simp
  | cons a t ih =>
      rw [List.foldr_cons, mem_insert_desc, List.mem_cons]
      tauto

/-- Every entry surviving to the `correlations` dict is a present column with
a defined correlation carrying its squared magnitude. -/
theorem mem_correlations_list (df : DataFrame) (p : String × ℚ)
    (hp : p ∈ correlations_list df) :
    p.1 ∈ df.cols ∧ corr_defined (corr_pairs df p.1) = true ∧
      p.2 = corr_sq (corr_pairs df p.1) := by
  unfold correlations_list at hp
  rcases List.mem_filterMap.mp hp with ⟨c, _, hc⟩
  by_cases h : c ∈ df.cols ∧ corr_defined (corr_pairs df c) = true
  · rw [if_pos h] at hc
    cases hc
    exact ⟨h.1, h.2, rfl⟩
  · rw [if_neg h] at hc
    cases hc

/-- C5: for every model, filters and requested `top_n`, the key-influencers
result has at most `top_n` rows, its impact magnitudes (carried as squared
correlations, a strictly monotone image of the absolute Pearson correlation)
are in descending order, every returned factor has a defined (non-NaN)
correlation with the attrition indicator over the filtered view, and the
direction label is `"Increases"` exactly when the correlation is positive
(the correlation has the sign of its covariance numerator) and `"Decreases"`
otherwise. -/
theorem c5_key_influencers (m : DataModel) (fs : Option Filters) (topN : ℕ) :
    (identify_key_influencers m fs topN).length ≤ topN ∧
    ((identify_key_influencers m fs topN).map Influencer.impactSq).Pairwise
      (fun a b => b ≤ a) ∧
    ((identify_key_influencers m fs topN).all (fun inf =>
      corr_defined (corr_pairs (apply_filters m.merged fs) inf.factor) &&
      (inf.direction ==
        if 0 < cov_sum (corr_pairs (apply_filters m.merged fs) inf.factor)
        then "Increases" else "Decreases"))) = true := by
  refine ⟨?_, ?_, ?_⟩
  · unfold identify_key_influencers
    rw [List.length_map]
    exact le_trans (List.length_take_le _ _) (le_refl _)
  · unfold identify_key_influencers
    rw [List.map_map]
    have hsorted := sort_desc_sorted (correlations_list (apply_filters m.merged fs))
    have htake := hsorted.sublist (List.take_sublist topN _)
    rw [List.pairwise_map]
    exact htake.imp (fun h => h)
  · rw [List.all_eq_true]
    intro inf hinf
    unfold identify_key_influencers at hinf
    rcases List.mem_map.mp hinf with ⟨p, hp, hpe⟩
    have hps : p ∈ sort_desc (correlations_list (apply_filters m.merged fs)) :=
      List.mem_of_mem_take hp
    have hpc := (mem_sort_desc _ _).mp hps
    have hprops := mem_correlations_list _ p hpc
    subst hpe
    simp only [Bool.and_eq_true, beq_iff_eq]
    exact ⟨hprops.2.1, trivial⟩

end HR
